import Mathlib

/-!
Verification of the perf-tester Test Orchestration Engine against its
natural-language specification.

The definitions below are a shallow embedding of the engine found in
`api/index.js` (the canonical variant of the orchestrator; the repository
also contains near-duplicate variants in `server.js` and the unnamed
files, which the spec says collapse into one orchestrator).  JavaScript
numbers are modelled as rationals (ℚ), JavaScript `null` as `Option.none`,
strings as Lean `String` (or `List Char` inside the regex engine), and
the external collaborators (browser, out-of-band fetch) as explicit
oracle parameters.  Asynchronous races against timers are modelled by
explicit durations supplied by the collaborator oracle.
-/

/-- A RunSample is one per-run measurement: `{ FCP: float|null, LCP: float|null }`.
`none` models JavaScript `null` ("signal not observed within bound"). -/
structure RunSample where
  FCP : Option ℚ
  LCP : Option ℚ
deriving DecidableEq

/-! ## Aggregator (api/index.js lines 229-241)

The orchestrator computes, per column:
`allMetrics.map(m => m.FCP).filter(v => v != null).sort((a, b) => a - b)`
and then `getMedian` of the sorted array.  A JavaScript numeric-comparator
sort is modelled by a stable merge sort with `≤`. -/

/-- Model of `arr.sort((a, b) => a - b)` on an all-number array: stable
ascending sort. -/
def jsSortAsc (l : List ℚ) : List ℚ :=
  l.mergeSort (fun a b => decide (a ≤ b))

/-- Model of `allMetrics.map(m => m.FCP).filter(v => v != null).sort((a,b) => a-b)`
from api/index.js line 229.  Filtering `v != null` on `number|null` values
keeps exactly the non-null numbers, i.e. `filterMap id` on options. -/
def fcpValues (ms : List RunSample) : List ℚ :=
  jsSortAsc ((ms.map (·.FCP)).filterMap id)

/-- Model of api/index.js line 230, the LCP column pipeline. -/
def lcpValues (ms : List RunSample) : List ℚ :=
  jsSortAsc ((ms.map (·.LCP)).filterMap id)

/-- Model of `getMedian` from api/index.js lines 232-236:
empty array gives null; `mid = floor(length/2)`; odd length gives `arr[mid]`;
even length gives `(arr[mid-1] + arr[mid]) / 2`. -/
def getMedian (arr : List ℚ) : Option ℚ :=
  if arr.length = 0 then none
  else
    let mid := arr.length / 2
    if arr.length % 2 ≠ 0 then some (arr.getD mid 0)
    else some ((arr.getD (mid - 1) 0 + arr.getD mid 0) / 2)

/-- Model of `medianMetrics` (api/index.js lines 238-241): the pair that the
orchestrator returns as `averageMetrics`. -/
def averageMetricsOf (ms : List RunSample) : Option ℚ × Option ℚ :=
  (getMedian (fcpValues ms), getMedian (lcpValues ms))

/-- Spec-side definition, following the words of the spec (section 4.4):
"filter out null; sort ascending; if empty return null; if odd count return
the middle element; if even count return the arithmetic mean of the two
middle elements."  The middle element of an odd-length sorted list `vs` is
`vs[(length - 1) / 2]`; the two middle elements of an even-length list are
at `length/2 - 1` and `length/2`. -/
def specMedian (col : List (Option ℚ)) : Option ℚ :=
  let vs := (col.filterMap id).mergeSort (fun a b => decide (a ≤ b))
  if vs.length = 0 then none
  else if vs.length % 2 = 1 then some (vs.getD ((vs.length - 1) / 2) 0)
  else some ((vs.getD (vs.length / 2 - 1) 0 + vs.getD (vs.length / 2) 0) / 2)

/-! ## A small JavaScript-regex model

The interceptor builds regexes with `new RegExp(pattern, flags)` and uses
`regex.test(body)` and `body.replace(regex, template)` (global flag).  The
model below implements the constructs those patterns use: literals,
`.`, character classes, capturing and non-capturing groups, alternation,
greedy and lazy quantifiers, and the anchors `^`/`$`.  Compilation
returns `none` exactly when `new RegExp` would throw a `SyntaxError`
(unbalanced groups, dangling quantifiers, unterminated classes, reversed
ranges; constructs outside the modelled subset, such as backreferences
and lookarounds, are also mapped to `none`).  Case-insensitive matching
(`i` flag) is modelled by ASCII case folding. -/

/-- Regex abstract syntax.  `grp none` is a non-capturing group (also used
for the whole pattern), `grp (some i)` captures into group `i`; `rep` is a
quantifier with a lower bound, an optional upper bound and a laziness
flag. -/
inductive RE where
  | lit (c : Char)
  | cls (neg : Bool) (ranges : List (Char × Char))
  | grp (idx : Option Nat) (alts : List (List RE))
  | rep (lo : Nat) (hi : Option Nat) (lz : Bool) (atom : RE)
  | bol
  | eol

/-- Captured groups: group index paired with the captured characters. -/
abbrev Caps : Type := List (Nat × List Char)

def isUpperA (c : Char) : Bool := 'A' ≤ c && c ≤ 'Z'

def isLowerA (c : Char) : Bool := 'a' ≤ c && c ≤ 'z'

/-- Character comparison; with `ic` set, ASCII letters also match their
other-case form (model of the `i` flag). -/
def charEqIC (ic : Bool) (a b : Char) : Bool :=
  a == b || (ic && ((isUpperA a && isLowerA b && a.toNat + 32 == b.toNat)
                 || (isLowerA a && isUpperA b && b.toNat + 32 == a.toNat)))

def inRanges (ranges : List (Char × Char)) (c : Char) : Bool :=
  ranges.any (fun r => r.1 ≤ c && c ≤ r.2)

def rangesHitIC (ic : Bool) (ranges : List (Char × Char)) (c : Char) : Bool :=
  inRanges ranges c ||
    (ic && ((isUpperA c && inRanges ranges (Char.ofNat (c.toNat + 32)))
          || (isLowerA c && inRanges ranges (Char.ofNat (c.toNat - 32)))))

def clsMatch (ic : Bool) (neg : Bool) (ranges : List (Char × Char)) (c : Char) : Bool :=
  if neg then !(rangesHitIC ic ranges c) else rangesHitIC ic ranges c

/-! ### Parser (model of `new RegExp`) -/

def digitsToNat (ds : List Char) : Nat :=
  ds.foldl (fun a c => a * 10 + (c.toNat - 48)) 0

/-- Parses the inside of a `{n}`, `{n,}` or `{n,m}` quantifier, after the
opening brace; `none` when the braces do not form a quantifier (JS then
treats the brace as a literal). -/
def parseBraceQuant (cs : List Char) : Option (Nat × Option Nat × List Char) :=
  let ds := cs.takeWhile (·.isDigit)
  let rest := cs.dropWhile (·.isDigit)
  if ds.isEmpty then none
  else
    match rest with
    | '}' :: r => some (digitsToNat ds, some (digitsToNat ds), r)
    | ',' :: '}' :: r => some (digitsToNat ds, none, r)
    | ',' :: r2 =>
      let ds2 := r2.takeWhile (·.isDigit)
      let rest2 := r2.dropWhile (·.isDigit)
      if ds2.isEmpty then none
      else match rest2 with
        | '}' :: r => some (digitsToNat ds, some (digitsToNat ds2), r)
        | _ => none
    | _ => none

def unescapeChar (c : Char) : Char :=
  if c = 'n' then '\n' else if c = 't' then '\t' else if c = 'r' then '\r'
  else if c = 'f' then Char.ofNat 12 else if c = 'v' then Char.ofNat 11
  else if c = '0' then Char.ofNat 0 else c

def wsRanges : List (Char × Char) := [('\t', Char.ofNat 13), (' ', ' ')]

/-- An escape sequence outside a class, as a regex atom; `none` for
constructs the model does not support (backreferences, word boundaries). -/
def escAtom (c : Char) : Option RE :=
  if c = 'd' then some (.cls false [('0', '9')])
  else if c = 'D' then some (.cls true [('0', '9')])
  else if c = 'w' then some (.cls false [('0', '9'), ('A', 'Z'), ('_', '_'), ('a', 'z')])
  else if c = 'W' then some (.cls true [('0', '9'), ('A', 'Z'), ('_', '_'), ('a', 'z')])
  else if c = 's' then some (.cls false wsRanges)
  else if c = 'S' then some (.cls true wsRanges)
  else if c.isDigit then none
  else if c = 'b' then none
  else if c = 'B' then none
  else some (.lit (unescapeChar c))

/-- One item of a character class (a possibly escaped character). -/
def clsItem : List Char → Option (Char × List Char)
  | '\\' :: c :: r => some (unescapeChar c, r)
  | '\\' :: [] => none
  | c :: r => some (c, r)
  | [] => none

/-- Parses the body of a character class up to the closing `]`; an
unterminated class or a reversed range is a syntax error (`none`). -/
def pCls (fuel : Nat) (cs : List Char) : Option (List (Char × Char) × List Char) :=
  match fuel with
  | 0 => none
  | fuel + 1 =>
    match cs with
    | [] => none
    | ']' :: rest => some ([], rest)
    | _ => do
      let (lo, r1) ← clsItem cs
      match r1 with
      | '-' :: ']' :: r3 => some ([(lo, lo), ('-', '-')], r3)
      | '-' :: r2 => do
        let (hi, r3) ← clsItem r2
        if lo ≤ hi then
          let (more, r4) ← pCls fuel r3
          some ((lo, hi) :: more, r4)
        else none
      | _ => do
        let (more, r2) ← pCls fuel r1
        some ((lo, lo) :: more, r2)

/-- Attaches a quantifier following an atom, if any. -/
def applyQuant (a : RE) (cs : List Char) : RE × List Char :=
  match cs with
  | '*' :: '?' :: r => (.rep 0 none true a, r)
  | '*' :: r => (.rep 0 none false a, r)
  | '+' :: '?' :: r => (.rep 1 none true a, r)
  | '+' :: r => (.rep 1 none false a, r)
  | '?' :: '?' :: r => (.rep 0 (some 1) true a, r)
  | '?' :: r => (.rep 0 (some 1) false a, r)
  | '{' :: r =>
    match parseBraceQuant r with
    | some (lo, hi, r2) =>
      match r2 with
      | '?' :: r3 => (.rep lo hi true a, r3)
      | _ => (.rep lo hi false a, r2)
    | none => (a, cs)
  | _ => (a, cs)

mutual

/-- Parses an alternation (sequences separated by `|`), stopping at `)` or
the end of the pattern. -/
def pAlts (fuel : Nat) (cs : List Char) (gc : Nat) : Option (List (List RE) × List Char × Nat) :=
  match fuel with
  | 0 => none
  | fuel + 1 => do
    let (s, r1, g1) ← pSeq fuel cs gc
    match r1 with
    | '|' :: r2 => do
      let (alts, r3, g3) ← pAlts fuel r2 g1
      pure (s :: alts, r3, g3)
    | _ => pure ([s], r1, g1)

/-- Parses a sequence of quantified atoms. -/
def pSeq (fuel : Nat) (cs : List Char) (gc : Nat) : Option (List RE × List Char × Nat) :=
  match fuel with
  | 0 => none
  | fuel + 1 =>
    match cs with
    | [] => some ([], [], gc)
    | ')' :: _ => some ([], cs, gc)
    | '|' :: _ => some ([], cs, gc)
    | _ => do
      let (a, r1, g1) ← pAtom fuel cs gc
      let (a2, r2) := applyQuant a r1
      let (s, r3, g3) ← pSeq fuel r2 g1
      pure (a2 :: s, r3, g3)

/-- Parses one atom.  A dangling quantifier, an unmatched `)`, a lone `\`
or an unsupported construct fails. -/
def pAtom (fuel : Nat) (cs : List Char) (gc : Nat) : Option (RE × List Char × Nat) :=
  match fuel with
  | 0 => none
  | fuel + 1 =>
    match cs with
    | [] => none
    | '(' :: '?' :: ':' :: r2 => do
      let (alts, r3, g1) ← pAlts fuel r2 gc
      match r3 with
      | ')' :: r4 => some (.grp none alts, r4, g1)
      | _ => none
    | '(' :: '?' :: _ => none
    | '(' :: rest => do
      let (alts, r3, g1) ← pAlts fuel rest (gc + 1)
      match r3 with
      | ')' :: r4 => some (.grp (some (gc + 1)) alts, r4, g1)
      | _ => none
    | '[' :: '^' :: r1 => do
      let (ranges, r2) ← pCls fuel r1
      some (.cls true ranges, r2, gc)
    | '[' :: r1 => do
      let (ranges, r2) ← pCls fuel r1
      some (.cls false ranges, r2, gc)
    | '\\' :: c :: rest => do
      let a ← escAtom c
      some (a, rest, gc)
    | '\\' :: [] => none
    | '.' :: rest => some (.cls true [('\n', '\n'), ('\r', '\r')], rest, gc)
    | '^' :: rest => some (.bol, rest, gc)
    | '$' :: rest => some (.eol, rest, gc)
    | '*' :: _ => none
    | '+' :: _ => none
    | '?' :: _ => none
    | ')' :: _ => none
    | c :: rest => some (.lit c, rest, gc)

end

/-- Model of `new RegExp(pattern)`: `some` compiled regex, or `none` when
construction throws a `SyntaxError`. -/
def compileRegex (pat : String) : Option RE :=
  match pAlts (4 * pat.length + 8) pat.data 0 with
  | some (alts, [], _) => some (.grp none alts)
  | _ => none

/-! ### Backtracking matcher

Each function returns the list of possible matches at the current
position, as pairs (consumed length, captures), ordered by JS backtracking
priority (greedy quantifiers try longer consumptions first); the engine
takes the head.  `fuel` only bounds recursion depth; all membership
lemmas below are fuel-polymorphic. -/

mutual

def mSeq (fuel : Nat) (ic : Bool) (rs : List RE) (s : List Char) (pos : Nat) :
    List (Nat × Caps) :=
  match fuel with
  | 0 => []
  | fuel + 1 =>
    match rs with
    | [] => [(0, [])]
    | r :: rest =>
      (mOne fuel ic r s pos).flatMap (fun p =>
        (mSeq fuel ic rest (s.drop p.1) (pos + p.1)).map (fun q => (p.1 + q.1, p.2 ++ q.2)))
termination_by structural fuel

def mOne (fuel : Nat) (ic : Bool) (r : RE) (s : List Char) (pos : Nat) :
    List (Nat × Caps) :=
  match fuel with
  | 0 => []
  | fuel + 1 =>
    match r with
    | .lit c =>
      match s with
      | [] => []
      | a :: _ => if charEqIC ic c a then [(1, [])] else []
    | .cls neg ranges =>
      match s with
      | [] => []
      | a :: _ => if clsMatch ic neg ranges a then [(1, [])] else []
    | .bol => if pos = 0 then [(0, [])] else []
    | .eol => if s.isEmpty then [(0, [])] else []
    | .grp idx alts =>
      (alts.flatMap (fun rs => mSeq fuel ic rs s pos)).map (fun p =>
        match idx with
        | some i => (p.1, (i, s.take p.1) :: p.2)
        | none => p)
    | .rep lo hi lz a => mRep fuel ic lo hi lz a s pos
termination_by structural fuel

def mRep (fuel : Nat) (ic : Bool) (lo : Nat) (hi : Option Nat) (lz : Bool) (a : RE)
    (s : List Char) (pos : Nat) : List (Nat × Caps) :=
  match fuel with
  | 0 => []
  | fuel + 1 =>
    let zero : List (Nat × Caps) := if lo = 0 then [(0, [])] else []
    let more : List (Nat × Caps) :=
      if hi = some 0 then []
      else
        (mOne fuel ic a s pos).flatMap (fun p =>
          if p.1 = 0 then []
          else
            (mRep fuel ic (lo - 1) (hi.map (· - 1)) lz a (s.drop p.1) (pos + p.1)).map
              (fun q => (p.1 + q.1, p.2 ++ q.2)))
    if lz then zero ++ more else more ++ zero

end

/-- The JS match attempt at one position: the highest-priority match of
`re` starting at the head of `s` (`pos` is the absolute offset of `s`
in the subject, used by the `^` anchor).  `fuel` bounds the backtracking
depth; the engine passes an ample value derived from the pattern and
subject lengths. -/
def tryMatchAt (fuel : Nat) (ic : Bool) (re : RE) (s : List Char) (pos : Nat) :
    Option (Nat × Caps) :=
  (mOne fuel ic re s pos).head?

/-- Backtracking fuel that is ample for a pattern compiled from `pat`
matched anywhere in subject `s`: parsing produces at most two regex
nodes per pattern character, and the matcher consumes fuel per node and
per consumed character. -/
def jsFuel (pat s : String) : Nat :=
  (s.data.length + 1) * (2 * pat.data.length + 4) + 2

/-- Model of `regex.test(subject)`: search every position for a match. -/
def searchAt (fuel : Nat) (ic : Bool) (re : RE) : List Char → Nat → Bool
  | [], pos => (tryMatchAt fuel ic re [] pos).isSome
  | c :: rest, pos =>
    (tryMatchAt fuel ic re (c :: rest) pos).isSome || searchAt fuel ic re rest (pos + 1)

def jsTest (fuel : Nat) (ic : Bool) (re : RE) (s : String) : Bool :=
  searchAt fuel ic re s.data 0

/-- Expansion of a replacement template for one match: `$1`..`$9` insert
the captured group (empty when unmatched), `$&` the whole match, `$$` a
dollar sign; anything else is literal, as in `String.prototype.replace`. -/
def substTmpl : List Char → Caps → List Char → List Char
  | [], _, _ => []
  | '$' :: '$' :: rest, caps, m => '$' :: substTmpl rest caps m
  | '$' :: '&' :: rest, caps, m => m ++ substTmpl rest caps m
  | '$' :: c :: rest, caps, m =>
    if '1' ≤ c && c ≤ '9' then ((caps.lookup (c.toNat - 48)).getD []) ++ substTmpl rest caps m
    else '$' :: c :: substTmpl rest caps m
  | c :: rest, caps, m => c :: substTmpl rest caps m

/-- Model of global `subject.replace(regex, template)`: scan left to
right; at each position try a match; on a non-empty match emit the
expanded template and resume after the match; on an empty match emit the
template and keep the current character; otherwise copy the character. -/
def scanReplace (fuel mfuel : Nat) (ic : Bool) (re : RE) (tmpl : List Char)
    (s : List Char) (pos : Nat) : List Char :=
  match fuel with
  | 0 => s
  | fuel + 1 =>
    match s with
    | [] =>
      match tryMatchAt mfuel ic re [] pos with
      | some p => substTmpl tmpl p.2 []
      | none => []
    | c :: rest =>
      match tryMatchAt mfuel ic re s pos with
      | none => c :: scanReplace fuel mfuel ic re tmpl rest (pos + 1)
      | some p =>
        if p.1 = 0 then
          substTmpl tmpl p.2 [] ++ c :: scanReplace fuel mfuel ic re tmpl rest (pos + 1)
        else
          substTmpl tmpl p.2 (s.take p.1)
            ++ scanReplace fuel mfuel ic re tmpl (s.drop p.1) (pos + p.1)

def jsReplaceAll (mfuel : Nat) (ic : Bool) (re : RE) (tmpl : String) (s : String) : String :=
  ⟨scanReplace (s.data.length + 1) mfuel ic re tmpl.data s.data 0⟩

/-! ## Rule set and HTML rewriting (api/index.js lines 346-422)

`setupRequestInterceptor` installs a per-request handler.  Its decision
logic is a pure function of the request description, the rule set, and
the outcome of the out-of-band fetch, modelled by `handleRequest` below.
JavaScript exceptions raised while building a regex from a rule are
modelled with `Except`: the inner `try`/`catch` converts them into an
abort with reason `failed`. -/

/-- The `html_replace` rule: `{ find: string, replace: string }`. -/
structure HtmlReplace where
  find : String
  replace : String
deriving DecidableEq

/-- The caller-supplied rule set.  A missing `block`/`defer` behaves like
an empty array and a missing `html_replace` like `none`, matching the
JavaScript falsiness checks on those fields. -/
structure Rules where
  block : List String := []
  defer : List String := []
  html_replace : Option HtmlReplace := none
deriving DecidableEq

/-- Model of `String.prototype.includes`: substring containment,
case-sensitive. -/
def listInfix (needle hay : List Char) : Bool :=
  match hay with
  | [] => needle.isEmpty
  | _ :: t => needle.isPrefixOf hay || listInfix needle t

def strIncludes (hay needle : String) : Bool :=
  listInfix needle.data hay.data

/-- The pattern string built for one defer fragment (api/index.js line
376); the fragment is spliced into the pattern verbatim, so it is
interpreted as regex syntax, not as a literal substring. -/
def deferPatternString (frag : String) : String :=
  "(<script[^>]*src=\"[^\"]*" ++ frag ++ "[^\"]*\"[^>]*)>"

def deferTemplate : String := "$1 defer>"

/-- One iteration of the defer `forEach` (api/index.js lines 375-382):
compile the pattern with flags `gi` (a `SyntaxError` is an exception,
modelled as `Except.error`); if it tests positive, globally replace with
the captured tag plus a trailing `defer`. -/
def deferOne (body : String) (frag : String) : Except Unit String :=
  match compileRegex (deferPatternString frag) with
  | none => .error ()
  | some re =>
    .ok (if jsTest (jsFuel (deferPatternString frag) body) true re body then
           jsReplaceAll (jsFuel (deferPatternString frag) body) true re deferTemplate body
         else body)

def applyDefer (frags : List String) (body : String) : Except Unit String :=
  frags.foldlM deferOne body

/-- The html_replace step (api/index.js lines 385-389): applied only when
`rules.html_replace?.find` is truthy (present and non-empty); the `find`
pattern is compiled with flag `g` and substituted globally. -/
def applyHtmlReplace (hr : Option HtmlReplace) (body : String) : Except Unit String :=
  match hr with
  | none => .ok body
  | some h =>
    if h.find = "" then .ok body
    else
      match compileRegex h.find with
      | none => .error ()
      | some re => .ok (jsReplaceAll (jsFuel h.find body) false re h.replace body)

/-- The full rewrite pipeline applied to an OK, HTML document body:
first all defer rules in order, then the html_replace rule. -/
def rewriteBody (rules : Rules) (body : String) : Except Unit String := do
  let b ← applyDefer rules.defer body
  applyHtmlReplace rules.html_replace b

/-- Decidable equality for `Except`, used to evaluate the rewrite
pipeline on concrete inputs. -/
instance {e a : Type} [DecidableEq e] [DecidableEq a] : DecidableEq (Except e a) := fun x y =>
  match x, y with
  | .ok v, .ok w =>
    if h : v = w then .isTrue (by rw [h]) else .isFalse (fun hc => h (Except.ok.inj hc))
  | .error v, .error w =>
    if h : v = w then .isTrue (by rw [h]) else .isFalse (fun hc => h (Except.error.inj hc))
  | .ok _, .error _ => .isFalse (fun hc => Except.noConfusion hc)
  | .error _, .ok _ => .isFalse (fun hc => Except.noConfusion hc)

/-! ### The interceptor decision -/

/-- The request description the handler inspects: `request.url()`,
`request.resourceType()`, `request.isNavigationRequest()`. -/
structure PRequest where
  url : String
  resourceType : String
  isNavigation : Bool
deriving DecidableEq

/-- Result of the out-of-band `fetch(requestUrl, ...)` when it resolves:
`ok`, `status`, header entries, and the body (text and raw bytes are both
modelled by the same string). -/
structure FetchSuccess where
  ok : Bool
  status : Nat
  headers : List (String × String)
  body : String
deriving DecidableEq

/-- Outcome of the out-of-band fetch; `failure` models a rejected fetch
promise. -/
inductive FetchOutcome where
  | success (r : FetchSuccess)
  | failure
deriving DecidableEq

/-- How the handler resolves the intercepted request.  `request.abort()`
without an argument uses puppeteer's default error code `failed`, so both
abort forms carry a reason string. -/
inductive ReqAction where
  | abort (reason : String)
  | respond (status : Nat) (headers : List (String × String)) (body : String)
  | continueReq
deriving DecidableEq

/-- ASCII lowercase fold, used for case-insensitive header names and for
the case-insensitive-containment wording of the defer claim. -/
def lowerChar (c : Char) : Char :=
  if isUpperA c then Char.ofNat (c.toNat + 32) else c

def lowerList (l : List Char) : List Char :=
  l.map lowerChar

/-- Case-insensitive substring containment (ASCII). -/
def containsCI (hay needle : String) : Bool :=
  listInfix (lowerList needle.data) (lowerList hay.data)

/-- Model of node-fetch `headers.get(name)`: case-insensitive header
lookup. -/
def headersGet (hs : List (String × String)) (name : String) : Option String :=
  (hs.find? (fun p => lowerList p.1.data == lowerList name.data)).map (·.2)

/-- Model of `fetchResponse.headers.get('content-type')?.includes('text/html')`
coerced to a condition (an absent header is falsy). -/
def ctIsHtml (r : FetchSuccess) : Bool :=
  match headersGet r.headers "content-type" with
  | some v => strIncludes v "text/html"
  | none => false

/-- The interceptor's decision for one request (api/index.js lines
350-420).  The block rules are checked first and abort regardless of
resource type; a navigation document request is fetched out of band and
answered with `respond`, falling back to `abort('failed')` when the fetch
rejects or a rewrite rule throws; everything else is continued.  The
function is total: every intercepted request is resolved. -/
def handleRequest (rules : Rules) (req : PRequest) (fo : FetchOutcome) : ReqAction :=
  if rules.block.any (fun fragment => strIncludes req.url fragment) then
    .abort "failed"
  else if req.resourceType = "document" ∧ req.isNavigation then
    match fo with
    | .failure => .abort "failed"
    | .success r =>
      if r.ok ∧ ctIsHtml r then
        match rewriteBody rules r.body with
        | .ok b => .respond r.status r.headers b
        | .error _ => .abort "failed"
      else
        .respond r.status r.headers r.body
  else
    .continueReq

/-! ### Structural predicates used by the defer-rewrite theorem -/

mutual

/-- True when a regex term contains no capturing group. -/
def groupFree : RE → Bool
  | .lit _ => true
  | .cls _ _ => true
  | .bol => true
  | .eol => true
  | .rep _ _ _ a => groupFree a
  | .grp (some _) _ => false
  | .grp none alts => groupFreeA alts

def groupFreeL : List RE → Bool
  | [] => true
  | r :: rs => groupFree r && groupFreeL rs

def groupFreeA : List (List RE) → Bool
  | [] => true
  | rs :: a => groupFreeL rs && groupFreeA a

end

/-- Decomposition of a defer rewrite, indexed by the matcher fuel and
the absolute position of the current suffix.  The subject splits into
kept characters and matched regions: a character is kept only where no
pattern match starts (so every match really is rewritten), the end of
the subject admits no match either, and every matched region is a match
of the compiled defer pattern that ends with the closing `>` and is
rewritten by injecting a trailing ` defer` immediately before that
`>`. -/
inductive DeferDecomp (ic : Bool) (re : RE) (mfuel : Nat) :
    Nat → List Char → List Char → Prop where
  | nil (pos : Nat) :
      tryMatchAt mfuel ic re [] pos = none →
      DeferDecomp ic re mfuel pos [] []
  | keep (pos : Nat) (c : Char) (s t : List Char) :
      tryMatchAt mfuel ic re (c :: s) pos = none →
      DeferDecomp ic re mfuel (pos + 1) s t →
      DeferDecomp ic re mfuel pos (c :: s) (c :: t)
  | rewriteTag (pos : Nat) (m rest t : List Char) (caps : Caps) :
      m ≠ [] →
      m.getLast? = some '>' →
      tryMatchAt mfuel ic re (m ++ rest) pos = some (m.length, caps) →
      DeferDecomp ic re mfuel (pos + m.length) rest t →
      DeferDecomp ic re mfuel pos (m ++ rest) ((m.dropLast ++ (" defer>").data) ++ t)

/-- The shape the compiled defer pattern takes for ordinary fragments:
one capturing group (the whole tag up to, but excluding, the closing
angle bracket) followed by the literal `>`. -/
def deferRE (inner : List RE) : RE :=
  .grp none [[.grp (some 1) [inner], .lit '>']]

/-! ## Metrics Bridge (api/index.js lines 128-161, 289-338)

`runSingleTest` races the page's one-shot FCP callback against a 30,000 ms
timer, and after the load event plus a 2,000 ms settle delay pulls the
last entry of the in-page LCP update log.  The page-side signals are
modelled by the callback's value and arrival time (relative to when the
race is armed) and by the ordered log of LCP `startTime`s. -/

/-- The signals one page load produces: the FCP callback (value and the
time it fires, `none` if it never fires) and the in-page LCP update
log. -/
structure PageSignals where
  fcpEvent : Option (ℚ × Nat)
  lcpUpdates : List ℚ

/-- Model of `Promise.race([fcpPromise, 30s -> null])` (api/index.js lines
141-149): the callback value wins when it arrives within 30,000 ms,
otherwise the timer resolves the race with `null`. -/
def fcpMetric (ev : Option (ℚ × Nat)) : Option ℚ :=
  match ev with
  | none => none
  | some (v, t) => if t ≤ 30000 then some v else none

/-- Model of `window.__getFinalLcp` (api/index.js lines 330-337): the last
recorded LCP update, or `null` when there is none. -/
def getFinalLcp (updates : List ℚ) : Option ℚ :=
  updates.getLast?

/-- The sample `runSingleTest` returns (api/index.js line 161). -/
def runSingleTestSample (sig : PageSignals) : RunSample :=
  { FCP := fcpMetric sig.fcpEvent, LCP := getFinalLcp sig.lcpUpdates }

/-! ## Orchestrator (api/index.js lines 168-283)

The POST /test handler: short-circuits `dryRun`; validates `url`; then
races the whole test body (launch, `runs` sequential runs, medians, one
clean screenshot) against a `runs × 90,000 ms` timer; the `catch` block
sends the error response, and the `finally` block closes the browser if
and only if the `browser` variable was assigned by then.  The browser
collaborator is an oracle of durations and run outcomes; the race is
decided by comparing the work's settle time with the timer delay
(`setTimeout` clamps a negative delay to 0). -/

/-- Model of the `!url` validation: absent or empty string is falsy. -/
def urlOkB : Option String → Bool
  | some u => !(u == "")
  | none => false

/-- Outcome of one `runSingleTest` call: a sample, or a navigation
timeout (the 60,000 ms `page.goto` deadline), each with the wall-clock
duration the run took. -/
inductive RunOutcome where
  | ok (sample : RunSample) (dur : Nat)
  | navTimeout (dur : Nat)

/-- The browser collaborator, as the orchestrator observes it: how long
the launch takes, what each run (by index) produces, and how long the
final clean screenshot navigation takes. -/
structure Collab where
  launchDur : Nat
  runOutcome : Nat → RunOutcome
  shotDur : Nat
  shot : String

/-- The parsed request body with the destructuring defaults of
api/index.js line 174.  `runs` is any JavaScript number; the default 3
applies only when the field is absent. -/
structure TestBody where
  url : Option String := none
  rules : Rules := {}
  mode : String := "custom"
  runs : Int := 3
  disableCache : Bool := false
  dryRun : Bool := false

/-- The echoed parameters of the success response. -/
structure ParamsEcho where
  url : String
  rules : Rules
  mode : String
  disableCache : Bool
deriving DecidableEq

/-- The JSON success payload (api/index.js lines 255-260 and 181-188). -/
structure Payload where
  parameters : ParamsEcho
  averageMetrics : Option ℚ × Option ℚ
  individualRuns : List RunSample
  screenshot : String
deriving DecidableEq

/-- The two fatal timeout errors the catch block distinguishes: a
puppeteer navigation `TimeoutError` and the orchestrator's own global
timeout (whose message carries `runs × 90` seconds). -/
inductive TErr where
  | navTimeout
  | globalTimeout (secs : Int)
deriving DecidableEq

/-- The HTTP response of the handler. -/
inductive TResponse where
  | json (p : Payload)
  | badRequest
  | serverError (e : TErr)
deriving DecidableEq

def isJsonResponse : TResponse → Bool
  | .json _ => true
  | _ => false

/-- Observable events of one invocation, in order: browser launch call,
start of run `i`, the final screenshot navigation, response emission, and
the `finally` block's browser close. -/
inductive Ev where
  | launch
  | runStart (i : Nat)
  | screenshot
  | respondOk
  | respondErr (e : TErr)
  | respond400
  | respondDry
  | closeBrowser
deriving DecidableEq

/-- The sequential run loop (api/index.js lines 220-226), starting at run
index `i` with `k` runs left: returns the collected samples, the summed
duration of the executed runs, and whether a navigation timeout aborted
the loop. -/
def collectFrom (c : Collab) (i : Nat) : Nat → List RunSample × Nat × Bool
  | 0 => ([], 0, false)
  | k + 1 =>
    match c.runOutcome i with
    | .ok s d =>
      let r := collectFrom c (i + 1) k
      (s :: r.1, d + r.2.1, r.2.2)
    | .navTimeout d => ([], d, true)

/-- The race deadline: `setTimeout(..., runs * 90000)`, with negative
delays clamped to zero. -/
def timerDelay (runs : Int) : Nat :=
  (max 0 (90000 * runs)).toNat

/-- The moment (relative to the race start) at which the test work
settles: launch, the executed runs, and on success the screenshot
navigation. -/
def settledDur (b : TestBody) (c : Collab) : Nat :=
  let r := collectFrom c 0 b.runs.toNat
  if r.2.2 then c.launchDur + r.2.1 else c.launchDur + r.2.1 + c.shotDur

/-- The fixed dry-run response body (api/index.js lines 181-188). -/
def dryPayload : Payload :=
  { parameters := { url := "dry-run", rules := {}, mode := "dry-run", disableCache := false }
    averageMetrics := (some (-1), some (-1))
    individualRuns := [{ FCP := some (-1), LCP := some (-1) }]
    screenshot := "" }

/-- The POST /test handler (api/index.js lines 168-283), returning the
response and the ordered trace of observable events.  On the error path
the `catch` block emits the response before the `finally` block closes
the browser; the browser is closed only if the launch had completed when
`finally` ran (on a global timeout during launch, `browser` is still
undefined there).  On the global-timeout path, collaborator activity
that continues in the background is not recorded. -/
def handleTest (b : TestBody) (c : Collab) : TResponse × List Ev :=
  if b.dryRun then
    (.json dryPayload, [.respondDry])
  else if urlOkB b.url = false then
    (.badRequest, [.respond400])
  else
    let n := b.runs.toNat
    let r := collectFrom c 0 n
    let samples := r.1
    let failed := r.2.2
    let td := timerDelay b.runs
    if settledDur b c > td then
      let e := TErr.globalTimeout (90 * b.runs)
      (.serverError e,
       [.launch, .respondErr e] ++ (if c.launchDur ≤ td then [.closeBrowser] else []))
    else if failed then
      (.serverError .navTimeout,
       [.launch] ++ ((List.range (samples.length + 1)).map .runStart)
         ++ [.respondErr .navTimeout, .closeBrowser])
    else
      (.json { parameters :=
                 { url := b.url.getD "", rules := b.rules, mode := b.mode
                   disableCache := b.disableCache }
               averageMetrics := averageMetricsOf samples
               individualRuns := samples
               screenshot := c.shot },
       [.launch] ++ ((List.range samples.length).map .runStart)
         ++ [.screenshot, .respondOk, .closeBrowser])

/-! ## Theorems -/

theorem getMedian_eq_spec (l : List ℚ) :
    getMedian l =
      (if l.length = 0 then none
       else if l.length % 2 = 1 then some (l.getD ((l.length - 1) / 2) 0)
       else some ((l.getD (l.length / 2 - 1) 0 + l.getD (l.length / 2) 0) / 2)) := by
  unfold getMedian
  by_cases h0 : l.length = 0
  · simp [h0]
  · have hpar : l.length % 2 ≠ 0 ↔ l.length % 2 = 1 := by omega
    by_cases h1 : l.length % 2 = 1
    · have hidx : (l.length - 1) / 2 = l.length / 2 := by omega
      simp [h0, hpar, h1, hidx]
    · simp [h0, hpar, h1]

/-- C1.  For every sequence of per-run samples, the aggregated
`averageMetrics` value for each of the FCP and LCP columns equals the
order-statistic median of that column: nulls filtered out, values sorted
ascending, empty remainder yields null, odd count yields the middle
element, even count yields the arithmetic mean of the two middle
elements. -/
theorem claim1_median (ms : List RunSample) :
    averageMetricsOf ms =
      (specMedian (ms.map (·.FCP)), specMedian (ms.map (·.LCP))) := by
  unfold averageMetricsOf specMedian fcpValues lcpValues jsSortAsc
  refine Prod.ext ?_ ?_ <;> simp only [getMedian_eq_spec]

/-- C2.  For every intercepted request and every rule set, if the
request's URL contains any element of `rules.block` as a case-sensitive
substring, the request is aborted — it is neither fetched (the fetch
outcome `fo` is arbitrary and unused), rewritten, nor continued,
regardless of its resource type; any single matching fragment
suffices. -/
theorem claim2_block (rules : Rules) (req : PRequest) (fo : FetchOutcome)
    (h : ∃ fragment ∈ rules.block, strIncludes req.url fragment = true) :
    handleRequest rules req fo = .abort "failed" := by
  have hb : rules.block.any (fun fragment => strIncludes req.url fragment) = true :=
    List.any_eq_true.mpr h
  simp [handleRequest, hb]

theorem claim2_block_witness :
    (∃ fragment ∈ ["adtrack.js"],
        strIncludes "https://cdn.example.com/lib/adtrack.js?v=9" fragment = true)
    ∧ handleRequest { block := ["adtrack.js"] }
        { url := "https://cdn.example.com/lib/adtrack.js?v=9", resourceType := "image",
          isNavigation := false }
        .failure = .abort "failed" :=
  ⟨by decide, claim2_block _ _ _ (by decide)⟩

/-- C6.  For every intercepted navigation document request that is not
blocked, if the out-of-band fetch for rewrite fails, the request is
resolved by aborting it with reason `failed` — never left unresolved.
(`handleRequest` is a total function of one request's data, so an
exception in one request's evaluation — modelled by the `Except` error
path inside it — cannot affect any other request.) -/
theorem claim6_fetch_failure (rules : Rules) (req : PRequest)
    (hb : rules.block.any (fun fragment => strIncludes req.url fragment) = false)
    (hd : req.resourceType = "document") (hn : req.isNavigation = true) :
    handleRequest rules req .failure = .abort "failed" := by
  simp [handleRequest, hb, hd, hn]

theorem claim6_fetch_failure_witness :
    ((({} : Rules)).block.any
        (fun fragment => strIncludes "https://t.example/page" fragment) = false)
    ∧ handleRequest {}
        { url := "https://t.example/page", resourceType := "document", isNavigation := true }
        .failure = .abort "failed" :=
  ⟨by decide, claim6_fetch_failure _ _ (by decide) rfl rfl⟩

/-- C7.  For every request with `dryRun = true`, the response contains
`individualRuns` of length exactly 1, `averageMetrics` equal to
`{FCP: -1, LCP: -1}`, and the browser collaborator is never invoked
(zero launch events in the trace). -/
theorem claim7_dry_run (b : TestBody) (c : Collab) (h : b.dryRun = true) :
    (handleTest b c).2.count Ev.launch = 0
    ∧ ∃ p, (handleTest b c).1 = .json p
        ∧ p.individualRuns.length = 1
        ∧ p.averageMetrics = (some (-1), some (-1)) := by
  refine ⟨?_, dryPayload, ?_, ?_, ?_⟩
  · simp [handleTest, h]
  · simp [handleTest, h]
  · simp [dryPayload]
  · simp [dryPayload]

theorem claim7_dry_run_witness :
    ({ dryRun := true } : TestBody).dryRun = true
    ∧ ((handleTest { dryRun := true }
          { launchDur := 0, runOutcome := fun _ => .ok { FCP := none, LCP := none } 0,
            shotDur := 0, shot := "" }).2.count Ev.launch = 0
       ∧ ∃ p, (handleTest { dryRun := true }
          { launchDur := 0, runOutcome := fun _ => .ok { FCP := none, LCP := none } 0,
            shotDur := 0, shot := "" }).1 = .json p
          ∧ p.individualRuns.length = 1
          ∧ p.averageMetrics = (some (-1), some (-1))) :=
  ⟨rfl, claim7_dry_run _ _ rfl⟩

/-- C8.  For every run in which the in-page FCP callback does not fire
within 30,000 ms (it never fires, or fires only after the timeout), the
run's FCP is recorded as null while the run still completes with its LCP
value — the timeout resolves the race instead of failing the run. -/
theorem claim8_fcp_timeout (sig : PageSignals)
    (h : ∀ v t, sig.fcpEvent = some (v, t) → 30000 < t) :
    runSingleTestSample sig = { FCP := none, LCP := getFinalLcp sig.lcpUpdates } := by
  unfold runSingleTestSample fcpMetric
  cases hev : sig.fcpEvent with
  | none => rfl
  | some p =>
    have ht : 30000 < p.2 := h p.1 p.2 (by rw [hev])
    have : ¬ (p.2 ≤ 30000) := by omega
    simp [this]

theorem claim8_fcp_timeout_witness :
    (∀ v t, (({ fcpEvent := some (123, 30001), lcpUpdates := [5] } : PageSignals)).fcpEvent
        = some (v, t) → 30000 < t)
    ∧ runSingleTestSample { fcpEvent := some (123, 30001), lcpUpdates := [5] }
        = { FCP := none, LCP := getFinalLcp [5] } :=
  ⟨fun v t hvt => by cases hvt; omega,
   claim8_fcp_timeout _ (fun v t hvt => by cases hvt; omega)⟩

/-- C4.  For every navigation document request that reaches the
rewrite-and-respond path (not blocked), every response delivered to the
page carries the upstream response's original status code and original
headers; when the upstream response is not OK or its content type is not
HTML, the original bytes are passed through unmodified; and the request
is always resolved (responded or aborted), never left pending. -/
theorem claim4_document_respond (rules : Rules) (req : PRequest) (r : FetchSuccess)
    (hb : rules.block.any (fun fragment => strIncludes req.url fragment) = false)
    (hd : req.resourceType = "document") (hn : req.isNavigation = true) :
    (∀ st hs bd, handleRequest rules req (.success r) = .respond st hs bd →
        st = r.status ∧ hs = r.headers)
    ∧ (¬(r.ok = true ∧ ctIsHtml r = true) →
        handleRequest rules req (.success r) = .respond r.status r.headers r.body)
    ∧ ((∃ reason, handleRequest rules req (.success r) = .abort reason)
        ∨ ∃ st hs bd, handleRequest rules req (.success r) = .respond st hs bd) := by
  by_cases hok : r.ok = true ∧ ctIsHtml r = true
  · cases hrw : rewriteBody rules r.body with
    | error e =>
      have hres : handleRequest rules req (.success r) = .abort "failed" := by
        simp [handleRequest, hb, hd, hn, hok, hrw]
      refine ⟨?_, fun hcontra => absurd hok hcontra, Or.inl ⟨"failed", hres⟩⟩
      intro st hs bd hcontra
      rw [hres] at hcontra
      exact absurd hcontra (by simp)
    | ok b' =>
      have hres : handleRequest rules req (.success r) = .respond r.status r.headers b' := by
        simp [handleRequest, hb, hd, hn, hok, hrw]
      refine ⟨?_, fun hcontra => absurd hok hcontra, Or.inr ⟨_, _, _, hres⟩⟩
      intro st hs bd heq
      rw [hres] at heq
      injection heq with h1 h2 h3
      exact ⟨h1.symm, h2.symm⟩
  · have hres : handleRequest rules req (.success r) = .respond r.status r.headers r.body := by
      simp [handleRequest, hb, hd, hn, hok]
    refine ⟨?_, fun _ => hres, Or.inr ⟨_, _, _, hres⟩⟩
    intro st hs bd heq
    rw [hres] at heq
    injection heq with h1 h2 h3
    exact ⟨h1.symm, h2.symm⟩

theorem claim4_document_respond_witness :
    ((({} : Rules)).block.any
        (fun fragment => strIncludes "https://t.example/doc" fragment) = false)
    ∧ ¬((false = true)
        ∧ (ctIsHtml { ok := false, status := 404,
                      headers := [("content-type", "text/plain")],
                      body := "nope" } = true))
    ∧ handleRequest {}
        { url := "https://t.example/doc", resourceType := "document", isNavigation := true }
        (.success { ok := false, status := 404,
                    headers := [("content-type", "text/plain")],
                    body := "nope" })
      = .respond 404 [("content-type", "text/plain")] "nope" :=
  ⟨by decide, by decide,
   (claim4_document_respond {} _ _ (by decide) rfl rfl).2.1 (by decide)⟩

/-- C5 counterexample.  The claim says a malformed `html_replace.find`
is either caught at rule-compile time with the rewrite a no-op (the
document response would then be the unmodified body with its original
status and headers) or rejected at validation time.  The engine does
neither: with `find = "("` (an invalid pattern, `compileRegex` returns
`none` exactly as `new RegExp` throws), a navigation document request
with an OK HTML upstream response is aborted with reason `failed` —
the page never receives a response — while validation (which only
checks `url`) accepts the request. -/
theorem claim5_malformed_counterexample :
    handleRequest { html_replace := some { find := "(", replace := "" } }
        { url := "https://site.example/", resourceType := "document", isNavigation := true }
        (.success { ok := true, status := 200,
                    headers := [("content-type", "text/html")],
                    body := "<p>hi</p>" })
      = .abort "failed"
    ∧ handleRequest { html_replace := some { find := "(", replace := "" } }
        { url := "https://site.example/", resourceType := "document", isNavigation := true }
        (.success { ok := true, status := 200,
                    headers := [("content-type", "text/html")],
                    body := "<p>hi</p>" })
      ≠ .respond 200 [("content-type", "text/html")] "<p>hi</p>"
    ∧ urlOkB (some "https://site.example/") = true
    ∧ compileRegex "(" = none :=
  ⟨rfl, by decide, rfl, rfl⟩

/-- C5 amended.  A malformed `html_replace.find` does not crash the
process: the `SyntaxError` thrown when the rule is compiled during
request interception is caught by the per-request handler, and the
document request is aborted with reason `failed`; the behaviour is
deterministic (the handler is a pure function of the rules, the request
and the fetch outcome). -/
theorem claim5_malformed_amended (rules : Rules) (req : PRequest) (r : FetchSuccess)
    (h : HtmlReplace)
    (hb : rules.block.any (fun fragment => strIncludes req.url fragment) = false)
    (hd : req.resourceType = "document") (hn : req.isNavigation = true)
    (hok : r.ok = true) (hct : ctIsHtml r = true)
    (hhr : rules.html_replace = some h) (hf : h.find ≠ "")
    (hc : compileRegex h.find = none) :
    handleRequest rules req (.success r) = .abort "failed" := by
  have hrw : rewriteBody rules r.body = .error () := by
    unfold rewriteBody
    cases hdef : applyDefer rules.defer r.body with
    | error e =>
      cases e
      rfl
    | ok bd =>
      show applyHtmlReplace rules.html_replace bd = .error ()
      rw [hhr]
      unfold applyHtmlReplace
      simp [hf, hc]
  simp [handleRequest, hb, hd, hn, hok, hct, hrw]

theorem claim5_malformed_amended_witness :
    compileRegex "(" = none
    ∧ ("(" : String) ≠ ""
    ∧ ctIsHtml { ok := true, status := 200,
                 headers := [("content-type", "text/html")],
                 body := "<p>hi</p>" } = true
    ∧ handleRequest { html_replace := some { find := "(", replace := "x" } }
        { url := "https://ok.example/", resourceType := "document", isNavigation := true }
        (.success { ok := true, status := 200,
                    headers := [("content-type", "text/html")],
                    body := "<p>hi</p>" })
      = .abort "failed" :=
  ⟨rfl, by decide, by decide,
   claim5_malformed_amended _ _ _ { find := "(", replace := "x" }
     (by decide) rfl rfl rfl (by decide) rfl (by decide) rfl⟩

/-- C9 counterexample.  The claim says that when the global deadline
(`runs × 90,000 ms`) elapses first, all resources are released before
the error surfaces.  In the engine the error response is sent by the
`catch` block and the browser is closed afterwards in the `finally`
block: at a concrete input whose work settles after the deadline, the
trace is launch, then the error response, then the browser close — the
close does not precede the response. -/
theorem claim9_global_timeout_counterexample :
    settledDur { url := some "https://e.test", runs := 1 }
        { launchDur := 100000, runOutcome := fun _ => .ok { FCP := some 1, LCP := some 2 } 0,
          shotDur := 0, shot := "s" }
      > timerDelay 1
    ∧ (handleTest { url := some "https://e.test", runs := 1 }
        { launchDur := 100000, runOutcome := fun _ => .ok { FCP := some 1, LCP := some 2 } 0,
          shotDur := 0, shot := "s" }).1
      = .serverError (.globalTimeout 90)
    ∧ (handleTest { url := some "https://e.test", runs := 1 }
        { launchDur := 100000, runOutcome := fun _ => .ok { FCP := some 1, LCP := some 2 } 0,
          shotDur := 0, shot := "s" }).2
      = [Ev.launch, Ev.respondErr (.globalTimeout 90)]
    ∧ ¬ (List.indexOf Ev.closeBrowser
          (handleTest { url := some "https://e.test", runs := 1 }
            { launchDur := 100000, runOutcome := fun _ => .ok { FCP := some 1, LCP := some 2 } 0,
              shotDur := 0, shot := "s" }).2
        < List.indexOf (Ev.respondErr (.globalTimeout 90))
          (handleTest { url := some "https://e.test", runs := 1 }
            { launchDur := 100000, runOutcome := fun _ => .ok { FCP := some 1, LCP := some 2 } 0,
              shotDur := 0, shot := "s" }).2) := by
  refine ⟨by decide, by decide, by decide, by decide⟩

/-- C9 amended.  Every test invocation races against a global deadline
of `runs × 90,000 ms` (clamped to zero for non-positive products); when
the work settles only after that deadline, the invocation fails with the
distinct global-timeout error (not the navigation `TimeoutError`); the
browser is closed by the `finally` block — after the error response has
been sent, not before — and only if the launch had completed within the
deadline (a timeout during launch leaves the browser unclosed, because
`browser` is still undefined when `finally` runs). -/
theorem claim9_global_timeout_amended (b : TestBody) (c : Collab)
    (hdry : b.dryRun = false) (hurl : urlOkB b.url = true)
    (ht : settledDur b c > timerDelay b.runs) :
    (handleTest b c).1 = .serverError (.globalTimeout (90 * b.runs))
    ∧ (TErr.globalTimeout (90 * b.runs) ≠ TErr.navTimeout)
    ∧ (handleTest b c).2
        = [Ev.launch, .respondErr (.globalTimeout (90 * b.runs))]
          ++ (if c.launchDur ≤ timerDelay b.runs then [Ev.closeBrowser] else []) := by
  refine ⟨?_, by simp, ?_⟩ <;> simp [handleTest, hdry, hurl, ht]

theorem claim9_global_timeout_amended_witness :
    ({ url := some "https://f.test", runs := 2 } : TestBody).dryRun = false
    ∧ urlOkB (some "https://f.test") = true
    ∧ settledDur { url := some "https://f.test", runs := 2 }
        { launchDur := 1000, runOutcome := fun _ => .ok { FCP := none, LCP := none } 100000,
          shotDur := 0, shot := "" }
      > timerDelay 2
    ∧ ((handleTest { url := some "https://f.test", runs := 2 }
          { launchDur := 1000, runOutcome := fun _ => .ok { FCP := none, LCP := none } 100000,
            shotDur := 0, shot := "" }).1
        = .serverError (.globalTimeout 180)
       ∧ (TErr.globalTimeout 180 ≠ TErr.navTimeout)) :=
  ⟨rfl, by decide, by decide,
   ((claim9_global_timeout_amended { url := some "https://f.test", runs := 2 }
      { launchDur := 1000, runOutcome := fun _ => .ok { FCP := none, LCP := none } 100000,
        shotDur := 0, shot := "" } rfl (by decide) (by decide)).1),
   ((claim9_global_timeout_amended { url := some "https://f.test", runs := 2 }
      { launchDur := 1000, runOutcome := fun _ => .ok { FCP := none, LCP := none } 100000,
        shotDur := 0, shot := "" } rfl (by decide) (by decide)).2.1)⟩

/-- C10 counterexample.  The claim says that with `runs ≤ 0` the engine
still launches the browser and captures the screenshot and responds with
`individualRuns = []` and `averageMetrics = {FCP: null, LCP: null}`.
But `runs ≤ 0` also makes the global race deadline `runs × 90,000 ms`
non-positive (clamped to 0), so whenever launch and screenshot take any
positive time the race rejects first and the invocation returns the
global-timeout error response instead of the claimed success JSON. -/
theorem claim10_nonpositive_runs_counterexample :
    (handleTest { url := some "https://g.test", runs := 0 }
        { launchDur := 1, runOutcome := fun _ => .ok { FCP := none, LCP := none } 0,
          shotDur := 0, shot := "shot" }).1
      = .serverError (.globalTimeout 0)
    ∧ isJsonResponse
        (handleTest { url := some "https://g.test", runs := 0 }
          { launchDur := 1, runOutcome := fun _ => .ok { FCP := none, LCP := none } 0,
            shotDur := 0, shot := "shot" }).1
      = false := by
  refine ⟨by decide, by decide⟩

/-- C10 amended.  If the caller supplies `runs ≤ 0` (never validated),
the engine performs zero measurement runs and still calls the browser
launch; but the global deadline `runs × 90,000 ms` is then non-positive,
so the success response — `individualRuns = []`, `averageMetrics =
{FCP: null, LCP: null}`, with the screenshot still captured — is
returned only when launch and screenshot take no time at all; otherwise
the invocation fails with the global-timeout error. -/
theorem claim10_nonpositive_runs_amended (b : TestBody) (c : Collab)
    (hdry : b.dryRun = false) (hurl : urlOkB b.url = true) (hruns : b.runs ≤ 0) :
    (collectFrom c 0 b.runs.toNat).1 = []
    ∧ Ev.launch ∈ (handleTest b c).2
    ∧ (c.launchDur + c.shotDur = 0 →
        (handleTest b c).1
          = .json { parameters := { url := b.url.getD "", rules := b.rules,
                                    mode := b.mode, disableCache := b.disableCache }
                    averageMetrics := (none, none)
                    individualRuns := []
                    screenshot := c.shot }
        ∧ Ev.screenshot ∈ (handleTest b c).2)
    ∧ (0 < c.launchDur + c.shotDur →
        (handleTest b c).1 = .serverError (.globalTimeout (90 * b.runs))) := by
  have hn0 : b.runs.toNat = 0 := Int.toNat_eq_zero.mpr hruns
  have htd : timerDelay b.runs = 0 := by
    have h1 : (90000 : Int) * b.runs ≤ 0 := by nlinarith
    unfold timerDelay
    omega
  have hsettle : settledDur b c = c.launchDur + c.shotDur := by
    unfold settledDur
    rw [hn0]
    simp [collectFrom]
  have hcoll : collectFrom c 0 b.runs.toNat = ([], 0, false) := by
    rw [hn0]
    rfl
  have havg : averageMetricsOf [] = (none, none) := by
    simp [averageMetricsOf, fcpValues, lcpValues, jsSortAsc, getMedian]
  refine ⟨by rw [hcoll], ?_, ?_, ?_⟩
  · by_cases hz : settledDur b c > timerDelay b.runs
    · simp [handleTest, hdry, hurl, hz]
    · simp [handleTest, hdry, hurl, hz, hcoll]
  · intro hz
    have hnot : ¬ (settledDur b c > timerDelay b.runs) := by
      rw [hsettle, htd, hz]
      omega
    constructor
    · simp [handleTest, hdry, hurl, hnot, hcoll, havg]
    · simp [handleTest, hdry, hurl, hnot, hcoll]
  · intro hz
    have hgt : settledDur b c > timerDelay b.runs := by
      rw [hsettle, htd]
      omega
    simp [handleTest, hdry, hurl, hgt]

theorem claim10_nonpositive_runs_amended_witness :
    ({ url := some "https://h.test", runs := -2 } : TestBody).dryRun = false
    ∧ urlOkB (some "https://h.test") = true
    ∧ ((-2 : Int) ≤ 0)
    ∧ ((collectFrom { launchDur := 0, runOutcome := fun _ => .ok { FCP := none, LCP := none } 0,
                      shotDur := 0, shot := "clean" } 0 ((-2 : Int)).toNat).1 = []
       ∧ Ev.launch ∈ (handleTest { url := some "https://h.test", runs := -2 }
            { launchDur := 0, runOutcome := fun _ => .ok { FCP := none, LCP := none } 0,
              shotDur := 0, shot := "clean" }).2) := by
  have h := claim10_nonpositive_runs_amended
    { url := some "https://h.test", runs := -2 }
    { launchDur := 0, runOutcome := fun _ => .ok { FCP := none, LCP := none } 0,
      shotDur := 0, shot := "clean" }
    rfl (by decide) (by decide)
  exact ⟨rfl, by decide, by decide, h.1, h.2.1⟩

theorem charEqIC_gt_eq (ic : Bool) (ch : Char) (h : charEqIC ic '>' ch = true) : ch = '>' := by
  have h1 : isUpperA '>' = false := by decide
  have h2 : isLowerA '>' = false := by decide
  unfold charEqIC at h
  rw [h1, h2] at h
  simp at h
  exact h.symm

theorem substTmpl_defer (g m : List Char) :
    substTmpl ("$1 defer>").data [(1, g)] m = g ++ (" defer>").data := rfl

theorem deferDecomp_of_no_match (ic : Bool) (re : RE) (mfuel : Nat) :
    ∀ s pos, searchAt mfuel ic re s pos = false →
      DeferDecomp ic re mfuel pos s s := by
  intro s
  induction s with
  | nil =>
    intro pos h
    simp only [searchAt] at h
    cases hm : tryMatchAt mfuel ic re [] pos with
    | none => exact .nil pos hm
    | some p => rw [hm] at h; simp at h
  | cons c rest ih =>
    intro pos h
    simp only [searchAt] at h
    rw [Bool.or_eq_false_iff] at h
    cases hm : tryMatchAt mfuel ic re (c :: rest) pos with
    | none => exact .keep pos c rest rest hm (ih (pos + 1) h.2)
    | some p => rw [hm] at h; simp at h

theorem groupFreeL_of_mem_alts {alts : List (List RE)} {rs : List RE}
    (h : groupFreeA alts = true) (hm : rs ∈ alts) : groupFreeL rs = true := by
  induction alts with
  | nil => cases hm
  | cons a t ih =>
    rw [groupFreeA, Bool.and_eq_true] at h
    rcases List.mem_cons.mp hm with hm | hm
    · rw [hm]; exact h.1
    · exact ih h.2 hm

theorem matcher_groupfree_caps (ic : Bool) : ∀ fuel : Nat,
    (∀ rs s pos p, groupFreeL rs = true → p ∈ mSeq fuel ic rs s pos → p.2 = [])
    ∧ (∀ r s pos p, groupFree r = true → p ∈ mOne fuel ic r s pos → p.2 = [])
    ∧ (∀ lo hi lz a s pos p, groupFree a = true → p ∈ mRep fuel ic lo hi lz a s pos →
        p.2 = []) := by
  intro fuel
  induction fuel with
  | zero =>
    refine ⟨?_, ?_, ?_⟩
    · intro rs s pos p _ hp; simp [mSeq] at hp
    · intro r s pos p _ hp; simp [mOne] at hp
    · intro lo hi lz a s pos p _ hp; simp [mRep] at hp
  | succ fuel ih =>
    obtain ⟨ihSeq, ihOne, ihRep⟩ := ih
    refine ⟨?_, ?_, ?_⟩
    · intro rs s pos p hg hp
      cases rs with
      | nil =>
        simp only [mSeq] at hp
        rw [List.mem_singleton] at hp
        rw [hp]
      | cons r rest =>
        simp only [mSeq] at hp
        rw [List.mem_flatMap] at hp
        obtain ⟨q1, hq1, hp⟩ := hp
        rw [List.mem_map] at hp
        obtain ⟨q2, hq2, hp⟩ := hp
        rw [groupFreeL, Bool.and_eq_true] at hg
        have c1 := ihOne r s pos q1 hg.1 hq1
        have c2 := ihSeq rest (s.drop q1.1) (pos + q1.1) q2 hg.2 hq2
        rw [← hp]
        simp [c1, c2]
    · intro r s pos p hg hp
      cases r with
      | lit c =>
        cases s with
        | nil => simp [mOne] at hp
        | cons a t =>
          simp only [mOne] at hp
          by_cases hq : charEqIC ic c a = true
          · rw [if_pos hq, List.mem_singleton] at hp; rw [hp]
          · rw [if_neg hq] at hp; cases hp
      | cls neg ranges =>
        cases s with
        | nil => simp [mOne] at hp
        | cons a t =>
          simp only [mOne] at hp
          by_cases hq : clsMatch ic neg ranges a = true
          · rw [if_pos hq, List.mem_singleton] at hp; rw [hp]
          · rw [if_neg hq] at hp; cases hp
      | bol =>
        simp only [mOne] at hp
        by_cases hq : pos = 0
        · rw [if_pos hq, List.mem_singleton] at hp; rw [hp]
        · rw [if_neg hq] at hp; cases hp
      | eol =>
        simp only [mOne] at hp
        by_cases hq : s.isEmpty = true
        · rw [if_pos hq, List.mem_singleton] at hp; rw [hp]
        · rw [if_neg hq] at hp; cases hp
      | grp idx alts =>
        cases idx with
        | some i => rw [groupFree] at hg; cases hg
        | none =>
          rw [groupFree] at hg
          simp only [mOne] at hp
          rw [List.mem_map] at hp
          obtain ⟨q, hq, hp⟩ := hp
          rw [List.mem_flatMap] at hq
          obtain ⟨rs, hrs, hq⟩ := hq
          have hc := ihSeq rs s pos q (groupFreeL_of_mem_alts hg hrs) hq
          rw [← hp]
          simpa using hc
      | rep lo hi lz a =>
        rw [groupFree] at hg
        simp only [mOne] at hp
        exact ihRep lo hi lz a s pos p hg hp
    · intro lo hi lz a s pos p hg hp
      simp only [mRep] at hp
      cases lz with
      | true =>
        rcases List.mem_append.mp hp with h | h
        · by_cases h0 : lo = 0
          · rw [if_pos h0, List.mem_singleton] at h; rw [h]
          · rw [if_neg h0] at h; cases h
        · by_cases hh : hi = some 0
          · rw [if_pos hh] at h; cases h
          · rw [if_neg hh] at h
            rw [List.mem_flatMap] at h
            obtain ⟨q1, hq1, h⟩ := h
            by_cases h0 : q1.1 = 0
            · rw [if_pos h0] at h; cases h
            · rw [if_neg h0] at h
              rw [List.mem_map] at h
              obtain ⟨q2, hq2, h⟩ := h
              have c1 := ihOne a s pos q1 hg hq1
              have c2 := ihRep (lo - 1) (hi.map (· - 1)) true a (s.drop q1.1) (pos + q1.1)
                q2 hg hq2
              rw [← h]
              simp [c1, c2]
      | false =>
        rcases List.mem_append.mp hp with h | h
        · by_cases hh : hi = some 0
          · rw [if_pos hh] at h; cases h
          · rw [if_neg hh] at h
            rw [List.mem_flatMap] at h
            obtain ⟨q1, hq1, h⟩ := h
            by_cases h0 : q1.1 = 0
            · rw [if_pos h0] at h; cases h
            · rw [if_neg h0] at h
              rw [List.mem_map] at h
              obtain ⟨q2, hq2, h⟩ := h
              have c1 := ihOne a s pos q1 hg hq1
              have c2 := ihRep (lo - 1) (hi.map (· - 1)) false a (s.drop q1.1) (pos + q1.1)
                q2 hg hq2
              rw [← h]
              simp [c1, c2]
        · by_cases h0 : lo = 0
          · rw [if_pos h0, List.mem_singleton] at h; rw [h]
          · rw [if_neg h0] at h; cases h

theorem mOne_defer_shape (ic : Bool) (inner : List RE) (hg : groupFreeL inner = true) :
    ∀ fuel s pos n caps,
      (n, caps) ∈ mOne fuel ic (deferRE inner) s pos →
      ∃ k ch, n = k + 1 ∧ caps = [(1, s.take k)]
        ∧ (s.drop k).head? = some ch ∧ charEqIC ic '>' ch = true := by
  intro fuel s pos n caps hp
  cases fuel with
  | zero => simp [mOne] at hp
  | succ f1 =>
    unfold deferRE at hp
    simp only [mOne] at hp
    rw [List.mem_map] at hp
    obtain ⟨q, hq, hmap⟩ := hp
    rw [List.mem_flatMap] at hq
    obtain ⟨rs, hrs, hq⟩ := hq
    rw [List.mem_singleton] at hrs
    subst hrs
    cases f1 with
    | zero => simp [mSeq] at hq
    | succ f2 =>
      simp only [mSeq] at hq
      rw [List.mem_flatMap] at hq
      obtain ⟨q1, hq1, hq⟩ := hq
      rw [List.mem_map] at hq
      obtain ⟨q2, hq2, hcomb⟩ := hq
      cases f2 with
      | zero => simp [mOne] at hq1
      | succ f3 =>
        simp only [mOne] at hq1
        rw [List.mem_map] at hq1
        obtain ⟨q0, hq0, hmap1⟩ := hq1
        rw [List.mem_flatMap] at hq0
        obtain ⟨rs0, hrs0, hq0⟩ := hq0
        rw [List.mem_singleton] at hrs0
        subst hrs0
        cases f3 with
        | zero => simp [mSeq] at hq0
        | succ f4 =>
          obtain ⟨k0, c0⟩ := q0
          have hc0 : c0 = [] :=
            (matcher_groupfree_caps ic (f4 + 1)).1 rs0 s pos (k0, c0) hg hq0
          subst hc0
          subst hmap1
          subst hmap
          simp only [mSeq] at hq2
          cases hdrop : s.drop (k0, ([(1, s.take k0)] : Caps)).1 with
          | nil => rw [hdrop] at hq2; simp [mOne] at hq2
          | cons ch t =>
            rw [hdrop] at hq2
            simp only [mOne] at hq2
            by_cases hch : charEqIC ic '>' ch = true
            · rw [if_pos hch] at hq2
              simp only [mSeq, List.flatMap_cons, List.flatMap_nil, List.map_cons,
                List.map_nil, List.append_nil] at hq2
              rw [List.mem_singleton] at hq2
              subst hq2
              rw [Prod.mk.injEq] at hcomb
              obtain ⟨hn1, hc1⟩ := hcomb
              refine ⟨k0, ch, ?_, ?_, ?_, hch⟩
              · omega
              · rw [← hc1]
                simp
              · simp only [] at hdrop
                rw [hdrop]
                rfl
            · rw [if_neg hch] at hq2
              simp at hq2

theorem scan_decomp (ic : Bool) (inner : List RE) (hg : groupFreeL inner = true) :
    ∀ fuel mfuel s pos, s.length < fuel →
      DeferDecomp ic (deferRE inner) mfuel pos s
        (scanReplace fuel mfuel ic (deferRE inner) (("$1 defer>").data) s pos) := by
  intro fuel
  induction fuel with
  | zero =>
    intro mfuel s pos hflen
    omega
  | succ fuel ih =>
    intro mfuel s pos hflen
    cases s with
    | nil =>
      simp only [scanReplace]
      cases hm : tryMatchAt mfuel ic (deferRE inner) [] pos with
      | none => exact .nil pos hm
      | some p =>
        exfalso
        unfold tryMatchAt at hm
        have hp : p ∈ mOne mfuel ic (deferRE inner) [] pos :=
          List.mem_of_mem_head? hm
        obtain ⟨k, ch, _, _, hhead, _⟩ := mOne_defer_shape ic inner hg _ _ _ p.1 p.2 hp
        simp at hhead
    | cons c rest =>
      simp only [scanReplace]
      cases hm : tryMatchAt mfuel ic (deferRE inner) (c :: rest) pos with
      | none =>
        refine .keep pos c rest _ hm (ih mfuel rest (pos + 1) ?_)
        simp only [List.length_cons] at hflen
        omega
      | some p =>
        have hmm := hm
        unfold tryMatchAt at hmm
        have hp : p ∈ mOne mfuel ic (deferRE inner) (c :: rest) pos :=
          List.mem_of_mem_head? hmm
        obtain ⟨k, ch, hn, hcaps, hhead, hch⟩ :=
          mOne_defer_shape ic inner hg _ _ _ p.1 p.2 hp
        have hch' : ch = '>' := charEqIC_gt_eq ic ch hch
        subst hch'
        have hk : (c :: rest)[k]? = some '>' := by
          rw [← List.head?_drop]
          exact hhead
        have hklt : k < (c :: rest).length := by
          cases hd : (c :: rest).drop k with
          | nil => rw [hd] at hhead; cases hhead
          | cons a u =>
            have hdl := List.length_drop k (c :: rest)
            rw [hd] at hdl
            simp only [List.length_cons] at hdl ⊢
            omega
        have hmeq : (c :: rest).take (k + 1) = (c :: rest).take k ++ ['>'] := by
          rw [List.take_succ, hk]
          rfl
        have hm0 : (c :: rest).take (k + 1) ≠ [] := by
          rw [hmeq]
          simp
        have hlast : ((c :: rest).take (k + 1)).getLast? = some '>' := by
          rw [hmeq]
          exact List.getLast?_concat _
        have hdropl : ((c :: rest).take (k + 1)).dropLast = (c :: rest).take k := by
          rw [hmeq]
          exact List.dropLast_concat
        have hlen : ((c :: rest).take (k + 1)).length = k + 1 := by
          rw [List.length_take]
          exact Nat.min_eq_left hklt
        have hev : tryMatchAt mfuel ic (deferRE inner)
            ((c :: rest).take (k + 1) ++ (c :: rest).drop (k + 1)) pos
            = some (((c :: rest).take (k + 1)).length, p.2) := by
          rw [List.take_append_drop, hlen]
          rw [hm, ← hn]
        have htail : DeferDecomp ic (deferRE inner) mfuel
            (pos + ((c :: rest).take (k + 1)).length) ((c :: rest).drop (k + 1))
            (scanReplace fuel mfuel ic (deferRE inner) (("$1 defer>").data)
              ((c :: rest).drop (k + 1)) (pos + (k + 1))) := by
          rw [hlen]
          refine ih mfuel _ _ ?_
          simp only [List.length_drop, List.length_cons] at hflen ⊢
          omega
        have key := DeferDecomp.rewriteTag pos ((c :: rest).take (k + 1))
          ((c :: rest).drop (k + 1))
          (scanReplace fuel mfuel ic (deferRE inner) (("$1 defer>").data)
            ((c :: rest).drop (k + 1)) (pos + (k + 1)))
          p.2 hm0 hlast hev htail
        rw [List.take_append_drop] at key
        have hout : substTmpl (("$1 defer>").data) p.2 ((c :: rest).take (k + 1))
            = ((c :: rest).take (k + 1)).dropLast ++ (" defer>").data := by
          rw [hcaps, substTmpl_defer, hdropl]
        show DeferDecomp ic (deferRE inner) mfuel pos (c :: rest)
          (if p.1 = 0 then
             substTmpl (("$1 defer>").data) p.2 [] ++
               c :: scanReplace fuel mfuel ic (deferRE inner) (("$1 defer>").data) rest (pos + 1)
           else
             substTmpl (("$1 defer>").data) p.2 ((c :: rest).take p.1) ++
               scanReplace fuel mfuel ic (deferRE inner) (("$1 defer>").data)
                 ((c :: rest).drop p.1) (pos + p.1))
        rw [hn, if_neg (Nat.succ_ne_zero k), hout]
        exact key

/-- C3 amended.  For every HTML document body and every fragment whose
constructed pattern `(<script[^>]*src="[^"]*FRAG[^"]*"[^>]*)>` compiles
to a single capturing group followed by the literal `>` (the case for
ordinary, group-free fragments), the defer rewrite — which matches the
fragment case-insensitively as a regular expression, not as a literal
substring — decomposes the body into kept characters and matched
script-tag regions: a character is kept only at positions where no
pattern match starts, so every region the pattern matches is rewritten
into the same text with a trailing ` defer` injected immediately before
its closing `>`, and nothing outside the matched regions is altered. -/
theorem claim3_defer_amended (frag body out : String) (inner : List RE)
    (hc : compileRegex (deferPatternString frag) = some (deferRE inner))
    (hg : groupFreeL inner = true)
    (hout : deferOne body frag = .ok out) :
    DeferDecomp true (deferRE inner) (jsFuel (deferPatternString frag) body) 0
      body.data out.data := by
  unfold deferOne at hout
  rw [hc] at hout
  have hout2 : Except.ok (ε := Unit)
      (if jsTest (jsFuel (deferPatternString frag) body) true (deferRE inner) body = true then
        jsReplaceAll (jsFuel (deferPatternString frag) body) true (deferRE inner)
          deferTemplate body
      else body) = Except.ok out := hout
  by_cases htest :
      jsTest (jsFuel (deferPatternString frag) body) true (deferRE inner) body = true
  · rw [if_pos htest] at hout2
    injection hout2 with h
    rw [← h]
    exact scan_decomp true inner hg (body.data.length + 1)
      (jsFuel (deferPatternString frag) body) body.data 0 (by omega)
  · rw [if_neg htest] at hout2
    injection hout2 with h
    rw [← h]
    have hfalse : jsTest (jsFuel (deferPatternString frag) body) true
        (deferRE inner) body = false := by
      cases hb : jsTest (jsFuel (deferPatternString frag) body) true (deferRE inner) body with
      | false => rfl
      | true => exact absurd hb htest
    exact deferDecomp_of_no_match true (deferRE inner)
      (jsFuel (deferPatternString frag) body) body.data 0 hfalse

set_option maxRecDepth 40000 in
theorem claim3_defer_amended_witness :
    compileRegex (deferPatternString "lib.js")
      = some (deferRE
          [RE.lit '<', RE.lit 's', RE.lit 'c', RE.lit 'r', RE.lit 'i', RE.lit 'p', RE.lit 't',
           RE.rep 0 none false (RE.cls true [('>', '>')]),
           RE.lit 's', RE.lit 'r', RE.lit 'c', RE.lit '=', RE.lit '"',
           RE.rep 0 none false (RE.cls true [('"', '"')]),
           RE.lit 'l', RE.lit 'i', RE.lit 'b',
           RE.cls true [('\n', '\n'), ('\r', '\r')],
           RE.lit 'j', RE.lit 's',
           RE.rep 0 none false (RE.cls true [('"', '"')]),
           RE.lit '"',
           RE.rep 0 none false (RE.cls true [('>', '>')])])
    ∧ deferOne "<p><script src=\"/vendor/lib.js\"></p>" "lib.js"
        = .ok "<p><script src=\"/vendor/lib.js\" defer></p>"
    ∧ DeferDecomp true
        (deferRE
          [RE.lit '<', RE.lit 's', RE.lit 'c', RE.lit 'r', RE.lit 'i', RE.lit 'p', RE.lit 't',
           RE.rep 0 none false (RE.cls true [('>', '>')]),
           RE.lit 's', RE.lit 'r', RE.lit 'c', RE.lit '=', RE.lit '"',
           RE.rep 0 none false (RE.cls true [('"', '"')]),
           RE.lit 'l', RE.lit 'i', RE.lit 'b',
           RE.cls true [('\n', '\n'), ('\r', '\r')],
           RE.lit 'j', RE.lit 's',
           RE.rep 0 none false (RE.cls true [('"', '"')]),
           RE.lit '"',
           RE.rep 0 none false (RE.cls true [('>', '>')])])
        (jsFuel (deferPatternString "lib.js") "<p><script src=\"/vendor/lib.js\"></p>") 0
        ("<p><script src=\"/vendor/lib.js\"></p>").data
        ("<p><script src=\"/vendor/lib.js\" defer></p>").data :=
  ⟨rfl, by decide,
   claim3_defer_amended "lib.js" _ _ _ rfl (by decide) (by decide)⟩

set_option maxRecDepth 40000 in
/-- C3 counterexample.  The claim states that the defer rewrite converts
exactly the script tags whose `src` attribute contains the fragment
(matched case-insensitively) and alters no other script tags.  With
fragment `"a.b"` and body `<p><script src="aXb"></p>`, the single
script tag's src `"aXb"` does not contain `"a.b"` even
case-insensitively, yet the engine rewrites it to
`<script src="aXb" defer>`: the fragment is spliced into the pattern as
regex syntax, so `.` matches any character. -/
theorem claim3_defer_counterexample :
    deferOne "<p><script src=\"aXb\"></p>" "a.b"
      = .ok "<p><script src=\"aXb\" defer></p>"
    ∧ containsCI "aXb" "a.b" = false
    ∧ ("<p><script src=\"aXb\" defer></p>" : String) ≠ "<p><script src=\"aXb\"></p>" :=
  ⟨by decide, by decide, by decide⟩
